import Mathlib

/-!
Verification of the Kalshi-Baller decision and position-lifecycle engine.

The definitions below are shallow embeddings of the JavaScript source:
* `BTCScalper` (scalper module, second revision): `_place`, `_managePositions`,
  `_checkResolutions`, `_calcFlipProbability`, `_analyze`.
* `CorrectionEngine` v2.0: `recordOutcome`, `_recalc`, `serialize`, `restore`.
* `MarketScanner.calcFee`.

Currency and price arithmetic is embedded in `ℚ` (JavaScript numbers are used
exactly on these small decimal values); the probability model, which uses
`Math.sqrt`/`Math.exp`, is embedded over `ℝ` with exact real arithmetic.
Display-only rounding (`toFixed`) and timestamps are omitted; they feed no
decision.
-/

/-! ## Fee functions

`MarketScanner.calcFee` takes a price in dollars (0..1); the `_analyze` EV gate
computes the same fee from a price in cents (`0.07 * (price/100) * (1 - price/100)`)
and also a cents-denominated copy (`fee * 100`). -/

/-- `MarketScanner.calcFee`: `0.07 * priceDollars * (1 - priceDollars)`. -/
def calcFee (priceDollars : ℚ) : ℚ := 0.07 * priceDollars * (1 - priceDollars)

/-- Fee as computed in `_analyze`: `0.07 * (price / 100) * (1 - price / 100)`,
with `price` in cents. -/
def analyzeFee (price : ℚ) : ℚ := 0.07 * (price / 100) * (1 - price / 100)

/-- Cents-denominated fee from `_analyze`: `feeCents = fee * 100`. -/
def analyzeFeeCents (price : ℚ) : ℚ := analyzeFee price * 100

/-- Modelled from the spec: the literal formula written in the spec's
edge/fee invariant, "fee(p) = 0.07·p·(1−p)/100", read verbatim with `p`
ranging over the cent domain (0,100) used by the same sentence. This is the
refinement comparison point for claim C9; the source functions are
`calcFee` and `analyzeFee` above. -/
def specFeeLiteral (p : ℚ) : ℚ := 0.07 * p * (1 - p) / 100

/-! ## Stake sizing (`_place`)

`_place` first computes a drawdown multiplier, then sizes either by the
fixed-tier micro table or by half-Kelly, and finally rejects the trade
outright when the resulting cost exceeds the regime's bankroll-fraction
ceiling (`0.20` for micro, `0.15` for scalp). -/

/-- Drawdown multiplier from `_place`:
`drawdown > 0.5 ? 0.25 : drawdown > 0.3 ? 0.5 : 1.0` with
`drawdown = 1 - bankroll / peak`. -/
def drawdownMultOf (bankroll peak : ℚ) : ℚ :=
  let drawdown := 1 - bankroll / peak
  if drawdown > 0.5 then 0.25 else if drawdown > 0.3 then 0.5 else 1

/-- Micro (fixed-tier) sizing from `_place`: edge-bucketed contract table,
risk cap, floor at one contract; returns `(contracts, cost)`. -/
def microSizing (bankroll peak edge price : ℚ) : ℤ × ℚ :=
  let edgePct := (if edge = 0 then 0.05 else edge) * 100
  let tbl : ℤ × ℚ :=
    if edgePct ≥ 12 then (5, 0.15) else if edgePct ≥ 8 then (3, 0.12) else (2, 0.08)
  let maxRisk := bankroll * tbl.2 * drawdownMultOf bankroll peak
  let contracts : ℤ := max 1 (min tbl.1 ⌊maxRisk * 100 / price⌋)
  (contracts, (contracts : ℚ) * price / 100)

/-- Scalp (half-Kelly) sizing from `_place`: Kelly fraction clamped to
`[0, 0.15]`, halved, scaled by the correction-engine size multiplier and the
drawdown multiplier, capped at `0.12` of bankroll, floored at one contract;
returns `(contracts, cost)`. -/
def scalpSizing (bankroll peak price modelProb sizeMult : ℚ) : ℤ × ℚ :=
  let b := (100 - price) / price
  let p := if modelProb = 0 then 0.55 else modelProb
  let q := 1 - p
  let kellyFraction := max 0 (min 0.15 ((b * p - q) / b))
  let halfKelly := kellyFraction * 0.5
  let maxBet := max 1 (min (bankroll * halfKelly * sizeMult * drawdownMultOf bankroll peak)
    (bankroll * 0.12))
  let contracts : ℤ := max 1 ⌊maxBet * 100 / price⌋
  (contracts, (contracts : ℚ) * price / 100)

/-- `_place`: size per regime, then reject outright (return `none`) when the
cost exceeds the absolute bankroll-fraction ceiling (`0.20` micro, `0.15`
scalp); otherwise accept the sized trade unchanged. -/
def place (bankroll peak : ℚ) (isMicro : Bool) (edge price modelProb sizeMult : ℚ) :
    Option (ℤ × ℚ) :=
  if isMicro then
    let s := microSizing bankroll peak edge price
    if s.2 > bankroll * 0.20 then none else some s
  else
    let s := scalpSizing bankroll peak price modelProb sizeMult
    if s.2 > bankroll * 0.15 then none else some s

/-! ## Claim C9 — fee symmetry and maximum -/

/-- Claim C9, counterexample: the spec's literal formula
`0.07·p·(1−p)/100` over the stated cent domain is not symmetric about the
midpoint (`p = 1` vs `p = 99`) and is not maximized at `p = 50`
(it is negative there, below its value at `p = 1`). -/
theorem c9_counterexample :
    specFeeLiteral 1 ≠ specFeeLiteral 99 ∧ specFeeLiteral 50 < specFeeLiteral 1 := by
  constructor <;> norm_num [specFeeLiteral]

/-- Claim C9 (amended): for all prices `p` in (0,100), the venue fee actually
used when netting edge, `fee(p) = 0.07·(p/100)·(1−p/100)` (equal to
`MarketScanner.calcFee` at `p/100` dollars), satisfies `fee(p) = fee(100−p)`
and attains its maximum at `p = 50`. -/
theorem c9_fee_properties (p : ℚ) (_h1 : 0 < p) (_h2 : p < 100) :
    analyzeFee p = analyzeFee (100 - p) ∧
    analyzeFee p ≤ analyzeFee 50 ∧
    analyzeFee p = calcFee (p / 100) := by
  refine ⟨?_, ?_, ?_⟩
  · unfold analyzeFee; ring
  · unfold analyzeFee; nlinarith [sq_nonneg (p - 50)]
  · unfold analyzeFee calcFee; ring

/-- Witness for C9 at the concrete price `p = 30`. -/
theorem c9_witness :
    (0 : ℚ) < 30 ∧
      (analyzeFee 30 = analyzeFee (100 - 30) ∧
        analyzeFee 30 ≤ analyzeFee 50 ∧
        analyzeFee 30 = calcFee (30 / 100)) :=
  ⟨by norm_num, c9_fee_properties 30 (by norm_num) (by norm_num)⟩

/-! ## Claim C2 — sizing bounds -/

/-- Claim C2: every trade accepted by `_place` has at least one contract and
cost at most the regime's absolute bankroll-fraction ceiling (`0.20 ×
bankroll` for micro, `0.15 × bankroll` for scalp), and the accepted stake is
exactly what the sizing formula produced (never resized); a candidate whose
computed cost exceeds the ceiling is rejected outright (`none`). -/
theorem c2_sizing_bounds (bankroll peak edge price modelProb sizeMult : ℚ) (isMicro : Bool) :
    (∀ c cost, place bankroll peak isMicro edge price modelProb sizeMult = some (c, cost) →
      1 ≤ c ∧ cost ≤ (if isMicro then (0.20 : ℚ) else 0.15) * bankroll ∧
      (c, cost) = (if isMicro then microSizing bankroll peak edge price
        else scalpSizing bankroll peak price modelProb sizeMult)) ∧
    ((if isMicro then microSizing bankroll peak edge price
        else scalpSizing bankroll peak price modelProb sizeMult).2 >
          (if isMicro then (0.20 : ℚ) else 0.15) * bankroll →
      place bankroll peak isMicro edge price modelProb sizeMult = none) := by
  constructor
  · intro c cost h
    cases isMicro with
    | false =>
      simp only [place, Bool.false_eq_true, if_false] at h ⊢
      split at h
      · exact absurd h (by simp)
      · rename_i hle
        have hc : c = (scalpSizing bankroll peak price modelProb sizeMult).1 := by
          have := congrArg (fun o => o.map Prod.fst) h
          simp at this; omega
        have hcost : cost = (scalpSizing bankroll peak price modelProb sizeMult).2 := by
          have := congrArg (fun o => o.map Prod.snd) h
          simp at this; linarith [this]
        refine ⟨?_, ?_, ?_⟩
        · rw [hc]; unfold scalpSizing; exact le_max_left _ _
        · rw [hcost]; simpa [mul_comm] using le_of_not_lt hle
        · rw [hc, hcost]
    | true =>
      simp only [place, if_true] at h ⊢
      split at h
      · exact absurd h (by simp)
      · rename_i hle
        have hc : c = (microSizing bankroll peak edge price).1 := by
          have := congrArg (fun o => o.map Prod.fst) h
          simp at this; omega
        have hcost : cost = (microSizing bankroll peak edge price).2 := by
          have := congrArg (fun o => o.map Prod.snd) h
          simp at this; linarith [this]
        refine ⟨?_, ?_, ?_⟩
        · rw [hc]; unfold microSizing; exact le_max_left _ _
        · rw [hcost]; simpa [mul_comm] using le_of_not_lt hle
        · rw [hc, hcost]
  · intro hgt
    cases isMicro <;> simp only [place] <;> simp_all [mul_comm]

/-- Witness for C2: a concrete micro candidate (bankroll 100, peak 100,
edge 6%, price 40¢) is accepted as 2 contracts costing $0.80, within the
20% ceiling. -/
theorem c2_witness :
    1 ≤ (2 : ℤ) ∧ (0.8 : ℚ) ≤ (if true then (0.20 : ℚ) else 0.15) * 100 ∧
      ((2 : ℤ), (0.8 : ℚ)) = (if true then microSizing 100 100 0.06 40
        else scalpSizing 100 100 40 0 1) :=
  (c2_sizing_bounds 100 100 0.06 40 0 1 true).1 2 0.8 (by
    norm_num [place, microSizing, drawdownMultOf])

/-! ## Position lifecycle state (`BTCScalper` instance fields)

The scalper's open set is the `activeOrders` map (order id → position),
mirrored here as an association list with unique string keys; `corrLog` is
the stream of outcomes passed to `CorrectionEngine.recordOutcome` (settlement
resolution notifies it exactly once; the early-exit path in
`_managePositions` does not call it). -/

/-- A tracked position (`activeOrders` map value): the fields of the stored
order object that the lifecycle code reads. -/
structure Position where
  ticker : String
  side : String
  price : ℚ
  contracts : ℕ
  direction : String
  volRegime : String
deriving DecidableEq

/-- Resolved-bet record pushed onto `this.bets` (display rounding and
timestamps omitted). -/
structure BetRecord where
  ticker : String
  side : String
  result : String
  won : Bool
  exitPrice : Option ℚ
deriving DecidableEq

/-- Payload of a `correction.recordOutcome` call from `_checkResolutions`. -/
structure CorrBet where
  ticker : String
  side : String
  buyPrice : ℚ
  contracts : ℕ
  won : Bool
  pnl : ℚ
  direction : String
  volRegime : String
deriving DecidableEq

/-- The scalper's mutable bookkeeping state. -/
structure ScalperState where
  bankroll : ℚ
  peak : ℚ
  streak : ℤ
  totalWins : ℕ
  totalLosses : ℕ
  microBets : ℕ
  microWins : ℕ
  activeOrders : List (String × Position)
  activeTickers : List String
  bets : List BetRecord
  corrLog : List CorrBet
  pausedUntil : ℚ
deriving DecidableEq

/-- Lookup in the `activeOrders` map. -/
def lookupOrder (l : List (String × Position)) (id : String) : Option Position :=
  match l with
  | [] => none
  | (k, p) :: t => if k == id then some p else lookupOrder t id

/-- `activeOrders.delete(id)`. -/
def removeOrder (l : List (String × Position)) (id : String) : List (String × Position) :=
  match l with
  | [] => []
  | e :: t => if e.1 == id then removeOrder t id else e :: removeOrder t id

theorem lookupOrder_removeOrder (l : List (String × Position)) (id : String) :
    lookupOrder (removeOrder l id) id = none := by
  induction l with
  | nil => rfl
  | cons e t ih =>
    by_cases h : e.1 == id
    · simpa [removeOrder, h] using ih
    · simpa [removeOrder, lookupOrder, h] using ih

/-! ## Settlement resolution (`_checkResolutions`) -/

/-- Market status/result pair returned by `kalshi.getMarket`. -/
structure MarketInfo where
  status : String
  result : Option String
deriving DecidableEq

/-- Kalshi lifecycle check: `status === 'settled' || 'determined' || 'closed'`. -/
def isResolvedStatus (s : String) : Bool :=
  s == ("settled") || s == ("determined") || s == ("closed")

/-- The terminal bookkeeping update performed by `_checkResolutions` when a
tracked position's market has settled with a declared result: P&L, bankroll,
streak, peak, micro counters, correction notification, history append,
removal from the open set. -/
def settle (st : ScalperState) (id : String) (order : Position) (result : String) :
    ScalperState :=
  let won := result == order.side
  let pnl : ℚ :=
    if won then (100 - order.price) * (order.contracts : ℚ) / 100
    else -(order.price * (order.contracts : ℚ) / 100)
  let corr := st.corrLog ++
    [⟨order.ticker, order.side, order.price, order.contracts, won, pnl,
      order.direction, order.volRegime⟩]
  let isMicro := order.volRegime == ("micro")
  if won then
    { st with
      totalWins := st.totalWins + 1
      bankroll := st.bankroll + pnl
      peak := max st.peak (st.bankroll + pnl)
      streak := max 0 st.streak + 1
      microBets := if isMicro then st.microBets + 1 else st.microBets
      microWins := if isMicro then st.microWins + 1 else st.microWins
      corrLog := corr
      bets := st.bets ++ [⟨order.ticker, order.side, result, true, none⟩]
      activeOrders := removeOrder st.activeOrders id
      activeTickers := st.activeTickers.filter (fun t => t != order.ticker) }
  else
    { st with
      totalLosses := st.totalLosses + 1
      bankroll := st.bankroll + pnl
      streak := min 0 st.streak - 1
      microBets := if isMicro then st.microBets + 1 else st.microBets
      corrLog := corr
      bets := st.bets ++ [⟨order.ticker, order.side, result, false, none⟩]
      activeOrders := removeOrder st.activeOrders id
      activeTickers := st.activeTickers.filter (fun t => t != order.ticker) }

/-- One iteration of the `_checkResolutions` loop for a given order id: if the
id is no longer tracked the poll performs no update; otherwise the position is
settled only when the market is resolved with a declared result (`closed`
with no result is left open for the next cycle). -/
def checkResolutionOne (st : ScalperState) (id : String) (m : MarketInfo) : ScalperState :=
  match lookupOrder st.activeOrders id with
  | none => st
  | some order =>
    match m.result with
    | some result => if isResolvedStatus m.status then settle st id order result else st
    | none => st

/-- Whether polling `m` for `id` in state `st` performs a terminal resolution. -/
def resolves (st : ScalperState) (id : String) (m : MarketInfo) : Bool :=
  (lookupOrder st.activeOrders id).isSome && m.result.isSome && isResolvedStatus m.status

/-! ## Early-exit evaluation (`_managePositions`) -/

/-- Exit reasons, in the priority order of `_managePositions`. -/
inductive ExitReason where
  | emergencyDD
  | takeProfit
  | stopLoss
  | timeDecay
  | fairValue
deriving DecidableEq

/-- Drawdown at the start of a management pass:
`peak > 0 ? 1 - bankroll/peak : 0`. -/
def ddOf (st : ScalperState) : ℚ :=
  if 0 < st.peak then 1 - st.bankroll / st.peak else 0

/-- Stop-loss threshold, tightened as drawdown deepens:
`drawdown > 0.40 ? -6 : drawdown > 0.25 ? -8 : -10`. -/
def slFor (dd : ℚ) : ℚ :=
  if dd > 0.40 then -6 else if dd > 0.25 then -8 else -10

/-- The exit-trigger chain of `_managePositions`, first match wins:
emergency drawdown, take-profit (`pnl ≥ 6`), stop-loss (`pnl ≤ slThreshold`),
time-decay (`minsRemaining < 2` and `pnl ≥ 2`), fair-value reached
(`pnl ≥ 3` and `47 ≤ bid ≤ 53`). -/
def exitTrigger (em : Bool) (slThr pnl minsRem bid : ℚ) : Option ExitReason :=
  if em then some ExitReason.emergencyDD
  else if 6 ≤ pnl then some ExitReason.takeProfit
  else if pnl ≤ slThr then some ExitReason.stopLoss
  else if minsRem < 2 ∧ 2 ≤ pnl then some ExitReason.timeDecay
  else if 3 ≤ pnl ∧ 47 ≤ bid ∧ bid ≤ 53 then some ExitReason.fairValue
  else none

/-- Per-position exit evaluation as performed inside the `_managePositions`
loop: micro positions are skipped unless the emergency applies; otherwise the
trigger chain runs with the pass-level drawdown context. -/
def evalPosition (dd : ℚ) (micro : Bool) (pnl minsRem bid : ℚ) : Option ExitReason :=
  if micro && !(decide (dd ≥ 0.60)) then none
  else exitTrigger (decide (dd ≥ 0.60)) (slFor dd) pnl minsRem bid

/-- JavaScript `String.prototype.startsWith`: the first `p.length` characters
of `s` equal `p`. -/
def jsStartsWith (s p : String) : Bool := decide (s.data.take p.data.length = p.data)

/-- Per-position environment read from the venue during the pass: the best
bid on the held side (`none` = no liquidity), minutes remaining, and whether
the offsetting sell order is accepted. -/
structure ManageEnv where
  bid : String → Option ℚ
  minsRem : String → ℚ
  sellOk : String → Bool

/-- The body of the `_managePositions` loop for one `activeOrders` entry:
skip dry-run ids, skip micro positions unless the emergency applies, skip on
no liquidity; on a trigger submit the offsetting sell (recorded as an exit
request) and, if the sell is accepted, perform the early-exit bookkeeping and
remove the position. -/
def manageStep (em : Bool) (slThr : ℚ) (env : ManageEnv)
    (acc : ScalperState × List (String × ExitReason)) (e : String × Position) :
    ScalperState × List (String × ExitReason) :=
  let st := acc.1
  let rs := acc.2
  let id := e.1
  let order := e.2
  if jsStartsWith id ("dry-") then acc
  else if (jsStartsWith id ("micro-") || order.volRegime == ("micro")) && !em then acc
  else
    match env.bid id with
    | none => acc
    | some currentBid =>
      let pnlPerContract := currentBid - order.price
      let totalPnl := pnlPerContract * (order.contracts : ℚ) / 100
      match exitTrigger em slThr pnlPerContract (env.minsRem id) currentBid with
      | none => acc
      | some reason =>
        let rs' := rs ++ [(id, reason)]
        if env.sellOk id then
          let won := decide (0 < pnlPerContract)
          let st' :=
            if won then
              { st with
                totalWins := st.totalWins + 1
                bankroll := st.bankroll + totalPnl
                peak := max st.peak (st.bankroll + totalPnl)
                streak := max 0 st.streak + 1
                bets := st.bets ++ [⟨order.ticker, order.side,
                  ("early_tp"), true, some currentBid⟩]
                activeOrders := removeOrder st.activeOrders id
                activeTickers := st.activeTickers.filter (fun t => t != order.ticker) }
            else
              { st with
                totalLosses := st.totalLosses + 1
                bankroll := st.bankroll + totalPnl
                streak := min 0 st.streak - 1
                bets := st.bets ++ [⟨order.ticker, order.side,
                  ("early_sl"), false, some currentBid⟩]
                activeOrders := removeOrder st.activeOrders id
                activeTickers := st.activeTickers.filter (fun t => t != order.ticker) }
          (st', rs')
        else (st, rs')

/-- The `_managePositions` loop over a snapshot of `activeOrders`. -/
def manageLoop (em : Bool) (slThr : ℚ) (env : ManageEnv) (st : ScalperState)
    (entries : List (String × Position)) : ScalperState × List (String × ExitReason) :=
  entries.foldl (manageStep em slThr env) (st, [])

/-- `_managePositions`: early return when no positions are open; compute the
pass-level drawdown, emergency flag and stop-loss threshold; run the loop;
after an emergency pass that left the open set empty, pause discovery for 30
minutes (`Date.now() + 30 * 60000`). -/
def managePass (st : ScalperState) (env : ManageEnv) (now : ℚ) :
    ScalperState × List (String × ExitReason) :=
  if st.activeOrders = [] then (st, [])
  else
    let dd := ddOf st
    let r := manageLoop (decide (dd ≥ 0.60)) (slFor dd) env st st.activeOrders
    (if dd ≥ 0.60 ∧ r.1.activeOrders = [] then { r.1 with pausedUntil := now + 1800000 }
     else r.1, r.2)

/-- One `_managePositions` iteration addressed by order id (the loop only
visits ids present in the open set; an id that has been removed is never
re-processed). -/
def manageOneById (em : Bool) (slThr : ℚ) (env : ManageEnv) (st : ScalperState)
    (id : String) : ScalperState :=
  match lookupOrder st.activeOrders id with
  | none => st
  | some order => (manageStep em slThr env (st, []) (id, order)).1

/-! ## Claim C1 — at most one terminal bookkeeping update per position -/

theorem settle_activeOrders (st : ScalperState) (id : String) (order : Position)
    (result : String) :
    (settle st id order result).activeOrders = removeOrder st.activeOrders id := by
  by_cases hw : result == order.side
  · simp only [settle, hw, if_true]
  · simp only [settle, hw, Bool.false_eq_true, if_false]

theorem checkResolutionOne_not_tracked (st : ScalperState) (id : String) (m : MarketInfo)
    (h : lookupOrder st.activeOrders id = none) : checkResolutionOne st id m = st := by
  unfold checkResolutionOne
  rw [h]

theorem manageOneById_not_tracked (em : Bool) (slThr : ℚ) (env : ManageEnv)
    (st : ScalperState) (id : String)
    (h : lookupOrder st.activeOrders id = none) : manageOneById em slThr env st id = st := by
  unfold manageOneById
  rw [h]

theorem checkResolutionOne_resolves (st : ScalperState) (id : String) (m : MarketInfo)
    (h : resolves st id m = true) :
    lookupOrder (checkResolutionOne st id m).activeOrders id = none := by
  unfold resolves at h
  simp only [Bool.and_eq_true, Option.isSome_iff_exists] at h
  obtain ⟨⟨⟨order, ho⟩, ⟨result, hr⟩⟩, hst⟩ := h
  simp only [checkResolutionOne, ho, hr, hst, if_true, settle_activeOrders]
  exact lookupOrder_removeOrder _ _

/-- Claim C1: a position no longer in the open set is never updated by a
resolution poll or a management pass; a poll that resolves a position removes
it from the open set, so polling it again (with any market answer) performs
no further bookkeeping, and a resolved position can never also take an early
exit; dually, once a management pass has removed a position, a subsequent
resolution poll performs no update. -/
theorem c1_resolution_idempotent (st : ScalperState) (id : String) (m m2 : MarketInfo)
    (em : Bool) (slThr : ℚ) (env : ManageEnv) :
    (lookupOrder st.activeOrders id = none →
      checkResolutionOne st id m = st ∧ manageOneById em slThr env st id = st) ∧
    (resolves st id m = true →
      lookupOrder (checkResolutionOne st id m).activeOrders id = none ∧
      checkResolutionOne (checkResolutionOne st id m) id m2 = checkResolutionOne st id m ∧
      manageOneById em slThr env (checkResolutionOne st id m) id = checkResolutionOne st id m) ∧
    (lookupOrder (manageOneById em slThr env st id).activeOrders id = none →
      checkResolutionOne (manageOneById em slThr env st id) id m =
        manageOneById em slThr env st id) := by
  refine ⟨fun h => ⟨checkResolutionOne_not_tracked _ _ _ h,
      manageOneById_not_tracked _ _ _ _ _ h⟩, fun h => ?_, fun h =>
      checkResolutionOne_not_tracked _ _ _ h⟩
  have hgone := checkResolutionOne_resolves st id m h
  exact ⟨hgone, checkResolutionOne_not_tracked _ _ _ hgone,
    manageOneById_not_tracked _ _ _ _ _ hgone⟩

/-- Concrete data for the lifecycle witnesses. -/
def posA : Position :=
  ⟨("KXBTC15M-1"), ("yes"), 40, 2, ("UP"), ("scalp")⟩

/-- A state holding the single open position `posA` under id `ord1`. -/
def stA : ScalperState :=
  ⟨100, 100, 0, 0, 0, 0, 0, [(("ord1"), posA)], [("KXBTC15M-1")], [], [], 0⟩

/-- An environment with no exit liquidity for any position. -/
def envNone : ManageEnv := ⟨fun _ => none, fun _ => 0, fun _ => true⟩

/-- A settled market whose declared result is `yes`. -/
def mSettledYes : MarketInfo := ⟨("settled"), some ("yes")⟩

/-- Witness for C1: resolving the concrete position `ord1` twice equals
resolving it once. -/
theorem c1_witness :
    resolves stA ("ord1") mSettledYes = true ∧
      checkResolutionOne (checkResolutionOne stA ("ord1") mSettledYes) ("ord1") mSettledYes =
        checkResolutionOne stA ("ord1") mSettledYes :=
  ⟨by decide,
    ((c1_resolution_idempotent stA ("ord1") mSettledYes mSettledYes false 0 envNone).2.1
      (by decide)).2.1⟩

/-! ## Claim C3 — settlement bookkeeping -/

/-- Claim C3: when a resolution poll finds a tracked position's market
resolved with a declared result, the realized P&L is
`(100 − entryPrice) × contracts / 100` on a win and
`−entryPrice × contracts / 100` on a loss; the bankroll changes by exactly
that P&L, the streak becomes `max(0, streak) + 1` (win, with the peak
refreshed) or `min(0, streak) − 1` (loss), the Correction Engine is notified
exactly once with that outcome, and the position leaves the open set. -/
theorem c3_settlement_bookkeeping (st : ScalperState) (id : String) (order : Position)
    (m : MarketInfo) (result : String)
    (hlk : lookupOrder st.activeOrders id = some order)
    (hres : m.result = some result)
    (hst : isResolvedStatus m.status = true) :
    (checkResolutionOne st id m).bankroll = st.bankroll +
      (if result == order.side then (100 - order.price) * (order.contracts : ℚ) / 100
       else -(order.price * (order.contracts : ℚ) / 100)) ∧
    (checkResolutionOne st id m).streak =
      (if result == order.side then max 0 st.streak + 1 else min 0 st.streak - 1) ∧
    (checkResolutionOne st id m).peak =
      (if result == order.side
       then max st.peak (st.bankroll + (100 - order.price) * (order.contracts : ℚ) / 100)
       else st.peak) ∧
    (checkResolutionOne st id m).corrLog = st.corrLog ++
      [⟨order.ticker, order.side, order.price, order.contracts, result == order.side,
        (if result == order.side then (100 - order.price) * (order.contracts : ℚ) / 100
         else -(order.price * (order.contracts : ℚ) / 100)),
        order.direction, order.volRegime⟩] ∧
    lookupOrder (checkResolutionOne st id m).activeOrders id = none := by
  simp only [checkResolutionOne, hlk, hres, hst, if_true]
  by_cases hw : result == order.side
  · simp [settle, hw, lookupOrder_removeOrder]
  · simp [settle, hw, lookupOrder_removeOrder]

/-- Witness for C3: settling the concrete winning position `ord1` (entry 40¢,
2 contracts) adds `$1.20`, sets the streak to 1, notifies the Correction
Engine once and removes the position. -/
theorem c3_witness :
    (checkResolutionOne stA ("ord1") mSettledYes).bankroll = stA.bankroll +
      (if ("yes") == posA.side then (100 - posA.price) * (posA.contracts : ℚ) / 100
       else -(posA.price * (posA.contracts : ℚ) / 100)) ∧
    (checkResolutionOne stA ("ord1") mSettledYes).streak =
      (if ("yes") == posA.side then max 0 stA.streak + 1 else min 0 stA.streak - 1) ∧
    (checkResolutionOne stA ("ord1") mSettledYes).peak =
      (if ("yes") == posA.side
       then max stA.peak (stA.bankroll + (100 - posA.price) * (posA.contracts : ℚ) / 100)
       else stA.peak) ∧
    (checkResolutionOne stA ("ord1") mSettledYes).corrLog = stA.corrLog ++
      [⟨posA.ticker, posA.side, posA.price, posA.contracts, ("yes") == posA.side,
        (if ("yes") == posA.side then (100 - posA.price) * (posA.contracts : ℚ) / 100
         else -(posA.price * (posA.contracts : ℚ) / 100)),
        posA.direction, posA.volRegime⟩] ∧
    lookupOrder (checkResolutionOne stA ("ord1") mSettledYes).activeOrders ("ord1") = none :=
  c3_settlement_bookkeeping stA ("ord1") posA mSettledYes ("yes") (by decide) rfl (by decide)

/-! ## Claim C4 — exit-trigger priority -/

/-- Claim C4, counterexample: a non-micro position with no drawdown, gain of
1¢ per contract (profitable) and 1 minute remaining triggers no exit at all —
the code's time-decay exit requires a gain of at least 2¢ per contract, not
mere profitability. -/
theorem c4_counterexample :
    evalPosition 0 false 1 1 41 = none ∧ (0 : ℚ) < 1 - 0 ∧ (1 : ℚ) < 2 := by
  refine ⟨by norm_num [evalPosition, exitTrigger, slFor], by norm_num, by norm_num⟩

/-- Claim C4 (amended): in each early-exit evaluation the triggers are checked
in priority order and the first match wins (at most one fires, the result
being a single optional reason): (a) emergency at drawdown ≥ 60%; then
(b) take-profit at gain ≥ 6¢ per contract; then (c) stop-loss at loss
reaching −10¢ normally, −8¢ above 25% drawdown, −6¢ above 40%; then
(d) time-decay when under 2 minutes remain and the gain is at least 2¢ per
contract; then (e) fair-value-reached when the gain is at least 3¢ and the
bid is between 47¢ and 53¢; micro/thin-edge positions are skipped unless the
emergency applies. -/
theorem c4_exit_priority (dd : ℚ) (micro : Bool) (pnl minsRem bid : ℚ) :
    (0.60 ≤ dd → evalPosition dd micro pnl minsRem bid = some ExitReason.emergencyDD) ∧
    (dd < 0.60 → micro = true → evalPosition dd micro pnl minsRem bid = none) ∧
    (dd < 0.60 → micro = false → 6 ≤ pnl →
      evalPosition dd micro pnl minsRem bid = some ExitReason.takeProfit) ∧
    (dd < 0.60 → micro = false → pnl < 6 → pnl ≤ slFor dd →
      evalPosition dd micro pnl minsRem bid = some ExitReason.stopLoss) ∧
    (dd < 0.60 → micro = false → pnl < 6 → slFor dd < pnl → minsRem < 2 → 2 ≤ pnl →
      evalPosition dd micro pnl minsRem bid = some ExitReason.timeDecay) ∧
    (dd < 0.60 → micro = false → pnl < 6 → slFor dd < pnl → ¬(minsRem < 2 ∧ 2 ≤ pnl) →
      3 ≤ pnl → 47 ≤ bid → bid ≤ 53 →
      evalPosition dd micro pnl minsRem bid = some ExitReason.fairValue) ∧
    (dd < 0.60 → micro = false → pnl < 6 → slFor dd < pnl → ¬(minsRem < 2 ∧ 2 ≤ pnl) →
      ¬(3 ≤ pnl ∧ 47 ≤ bid ∧ bid ≤ 53) → evalPosition dd micro pnl minsRem bid = none) ∧
    (slFor dd = if dd > 0.40 then -6 else if dd > 0.25 then -8 else -10) := by
  have hsl : slFor dd = if dd > 0.40 then -6 else if dd > 0.25 then -8 else -10 := rfl
  refine ⟨?_, ?_, ?_, ?_, ?_, ?_, ?_, hsl⟩
  · intro h
    have hd : decide (dd ≥ 0.60) = true := by simpa [ge_iff_le] using h
    simp [evalPosition, exitTrigger, hd]
  · intro h hmicro
    have hd : decide (dd ≥ 0.60) = false := by simpa [ge_iff_le] using not_le.mpr h
    simp [evalPosition, hd, hmicro]
  · intro h hmicro h6
    have hd : decide (dd ≥ 0.60) = false := by simpa [ge_iff_le] using not_le.mpr h
    simp [evalPosition, hd, hmicro, exitTrigger, h6]
  · intro h hmicro h6 hsl'
    have hd : decide (dd ≥ 0.60) = false := by simpa [ge_iff_le] using not_le.mpr h
    simp [evalPosition, hd, hmicro, exitTrigger, not_le.mpr h6, hsl']
  · intro h hmicro h6 hsl' hmins h2
    have hd : decide (dd ≥ 0.60) = false := by simpa [ge_iff_le] using not_le.mpr h
    simp [evalPosition, hd, hmicro, exitTrigger, not_le.mpr h6, not_le.mpr hsl', hmins, h2]
  · intro h hmicro h6 hsl' htd h3 h47 h53
    have hd : decide (dd ≥ 0.60) = false := by simpa [ge_iff_le] using not_le.mpr h
    simp [evalPosition, hd, hmicro, exitTrigger, not_le.mpr h6, not_le.mpr hsl', htd,
      h3, h47, h53]
  · intro h hmicro h6 hsl' htd hfv
    have hd : decide (dd ≥ 0.60) = false := by simpa [ge_iff_le] using not_le.mpr h
    simp [evalPosition, hd, hmicro, exitTrigger, not_le.mpr h6, not_le.mpr hsl', htd, hfv]

/-- Witness for C4: with no drawdown, a non-micro position 7¢ in profit takes
the take-profit exit. -/
theorem c4_witness : evalPosition 0 false 7 5 47 = some ExitReason.takeProfit :=
  (c4_exit_priority 0 false 7 5 47).2.2.1 (by norm_num) rfl (by norm_num)

/-! ## Claim C5 — emergency drawdown liquidation and cooldown -/

/-- Whether the loop body submits an exit request for an entry (and with
which reason): it mirrors the skip、bid and trigger logic of `manageStep`,
which does not depend on the bookkeeping accumulated so far in the pass. -/
def reqOf (em : Bool) (slThr : ℚ) (env : ManageEnv) (e : String × Position) :
    Option (String × ExitReason) :=
  if jsStartsWith e.1 ("dry-") then none
  else if (jsStartsWith e.1 ("micro-") || e.2.volRegime == ("micro")) && !em then none
  else
    match env.bid e.1 with
    | none => none
    | some bid =>
      (exitTrigger em slThr (bid - e.2.price) (env.minsRem e.1) bid).map (fun r => (e.1, r))

theorem manageStep_snd (em : Bool) (slThr : ℚ) (env : ManageEnv)
    (acc : ScalperState × List (String × ExitReason)) (e : String × Position) :
    (manageStep em slThr env acc e).2 = acc.2 ++ (reqOf em slThr env e).toList := by
  unfold manageStep reqOf
  by_cases h1 : jsStartsWith e.1 ("dry-")
  · simp [h1]
  · by_cases h2 : (jsStartsWith e.1 ("micro-") || e.2.volRegime == ("micro")) && !em
    · simp [h1, h2]
    · cases hbid : env.bid e.1 with
      | none => simp [h1, h2, hbid]
      | some b =>
        cases htr : exitTrigger em slThr (b - e.2.price) (env.minsRem e.1) b with
        | none => simp [h1, h2, hbid, htr]
        | some r =>
          by_cases hok : env.sellOk e.1 <;> simp [h1, h2, hbid, htr, hok]

theorem manageStep_pausedUntil (em : Bool) (slThr : ℚ) (env : ManageEnv)
    (acc : ScalperState × List (String × ExitReason)) (e : String × Position) :
    (manageStep em slThr env acc e).1.pausedUntil = acc.1.pausedUntil := by
  unfold manageStep
  by_cases h1 : jsStartsWith e.1 ("dry-")
  · simp [h1]
  · by_cases h2 : (jsStartsWith e.1 ("micro-") || e.2.volRegime == ("micro")) && !em
    · simp [h1, h2]
    · cases hbid : env.bid e.1 with
      | none => simp [h1, h2, hbid]
      | some b =>
        cases htr : exitTrigger em slThr (b - e.2.price) (env.minsRem e.1) b with
        | none => simp [h1, h2, hbid, htr]
        | some r =>
          by_cases hok : env.sellOk e.1
          · simp [h1, h2, hbid, htr, hok]
            split_ifs <;> rfl
          · simp [h1, h2, hbid, htr, hok]

theorem foldl_manageStep_snd (em : Bool) (slThr : ℚ) (env : ManageEnv)
    (l : List (String × Position)) :
    ∀ acc : ScalperState × List (String × ExitReason),
      (l.foldl (manageStep em slThr env) acc).2 = acc.2 ++ l.filterMap (reqOf em slThr env) := by
  induction l with
  | nil => intro acc; simp
  | cons e t ih =>
    intro acc
    rw [List.foldl_cons, ih, manageStep_snd]
    cases h : reqOf em slThr env e <;> simp [h]

theorem foldl_manageStep_pausedUntil (em : Bool) (slThr : ℚ) (env : ManageEnv)
    (l : List (String × Position)) :
    ∀ acc : ScalperState × List (String × ExitReason),
      (l.foldl (manageStep em slThr env) acc).1.pausedUntil = acc.1.pausedUntil := by
  induction l with
  | nil => intro acc; rfl
  | cons e t ih =>
    intro acc
    rw [List.foldl_cons, ih, manageStep_pausedUntil]

theorem managePass_requests (st : ScalperState) (env : ManageEnv) (now : ℚ)
    (h : st.activeOrders ≠ []) :
    (managePass st env now).2 = st.activeOrders.filterMap
      (reqOf (decide (ddOf st ≥ 0.60)) (slFor (ddOf st)) env) := by
  simp only [managePass, if_neg h, manageLoop]
  rw [foldl_manageStep_snd]
  simp

theorem exitTrigger_false_reason (slThr pnl minsRem bid : ℚ) (r : ExitReason)
    (h : exitTrigger false slThr pnl minsRem bid = some r) : r ≠ ExitReason.emergencyDD := by
  unfold exitTrigger at h
  split_ifs at h <;> simp_all
  all_goals subst h
  all_goals simp

theorem reqOf_reason (em : Bool) (slThr : ℚ) (env : ManageEnv) (e : String × Position)
    (id : String) (r : ExitReason) (hem : em = false)
    (h : reqOf em slThr env e = some (id, r)) : r ≠ ExitReason.emergencyDD := by
  subst hem
  unfold reqOf at h
  split_ifs at h with h1 h2
  · cases hbid : env.bid e.1 <;> rw [hbid] at h
    · simp at h
    · rw [Option.map_eq_some'] at h
      obtain ⟨a, ha, hpair⟩ := h
      have : a = r := by
        have := congrArg Prod.snd hpair
        simpa using this
      subst this
      exact exitTrigger_false_reason _ _ _ _ _ ha

/-- Claim C5 (amended): when drawdown is at or above the 60% threshold at the
start of a management pass, every open position that the pass can evaluate
(not a dry-run placeholder and with an available exit bid) triggers an
emergency early-exit request on that pass; when drawdown is below 60% no
emergency exit request is issued; once the emergency pass leaves the open set
empty, a fixed 30-minute pause is set (`now + 1800000` ms); a non-emergency
pass never changes the pause. -/
theorem c5_emergency_liquidation (st : ScalperState) (env : ManageEnv) (now : ℚ) :
    (0.60 ≤ ddOf st → ∀ id order, (id, order) ∈ st.activeOrders →
      jsStartsWith id ("dry-") = false → env.bid id ≠ none →
      (id, ExitReason.emergencyDD) ∈ (managePass st env now).2) ∧
    (ddOf st < 0.60 → ∀ id r, (id, r) ∈ (managePass st env now).2 →
      r ≠ ExitReason.emergencyDD) ∧
    (0.60 ≤ ddOf st → st.activeOrders ≠ [] →
      (managePass st env now).1.activeOrders = [] →
      (managePass st env now).1.pausedUntil = now + 1800000) ∧
    (ddOf st < 0.60 → (managePass st env now).1.pausedUntil = st.pausedUntil) := by
  refine ⟨?_, ?_, ?_, ?_⟩
  · intro hdd id order hmem hdry hbid
    have hnil : st.activeOrders ≠ [] := by
      intro h; rw [h] at hmem; simp at hmem
    have hd : decide (ddOf st ≥ 0.60) = true := by simpa [ge_iff_le] using hdd
    rw [managePass_requests st env now hnil]
    refine List.mem_filterMap.mpr ⟨(id, order), hmem, ?_⟩
    obtain ⟨b, hb⟩ := Option.ne_none_iff_exists'.mp hbid
    rw [hd]
    simp [reqOf, hdry, hb, exitTrigger]
  · intro hdd id r hmem
    by_cases hnil : st.activeOrders = []
    · simp [managePass, hnil] at hmem
    · rw [managePass_requests st env now hnil] at hmem
      obtain ⟨e, _hmem', hreq⟩ := List.mem_filterMap.mp hmem
      have hd : decide (ddOf st ≥ 0.60) = false := by
        simpa [ge_iff_le] using not_le.mpr hdd
      rw [hd] at hreq
      exact reqOf_reason false _ env e id r rfl hreq
  · intro hdd hnil hempty
    simp only [managePass, if_neg hnil] at hempty ⊢
    split_ifs with hc
    · rfl
    · rw [if_neg hc] at hempty
      exact absurd ⟨by simpa [ge_iff_le] using hdd, hempty⟩ hc
  · intro hdd
    by_cases hnil : st.activeOrders = []
    · simp [managePass, hnil]
    · simp only [managePass, if_neg hnil]
      split_ifs with hc
      · exact absurd hc.1 (by simpa [ge_iff_le] using not_le.mpr hdd)
      · simp only [manageLoop]
        rw [foldl_manageStep_pausedUntil]

/-- A state at exactly 60% drawdown (bankroll 40, peak 100) holding the
single open position `posA`. -/
def stDD : ScalperState :=
  ⟨40, 100, 0, 0, 0, 0, 0, [(("ord1"), posA)], [("KXBTC15M-1")], [], [], 0⟩

/-- An environment quoting a 30¢ exit bid for every position. -/
def envBid : ManageEnv := ⟨fun _ => some 30, fun _ => 5, fun _ => true⟩

/-- Claim C5, counterexample: at exactly the 60% drawdown threshold, a pass
over one open position with no exit liquidity submits no early-exit request
at all, so not every open position triggers an early-exit request. -/
theorem c5_counterexample :
    0.60 ≤ ddOf stDD ∧ stDD.activeOrders ≠ [] ∧ (managePass stDD envNone 0).2 = [] := by
  refine ⟨by norm_num [ddOf, stDD], by simp [stDD], ?_⟩
  rw [managePass_requests stDD envNone 0 (by simp [stDD])]
  rfl

/-- Witness for C5: at exactly 60% drawdown with an available exit bid, the
concrete position `ord1` receives an emergency exit request. -/
theorem c5_witness :
    ((("ord1"), ExitReason.emergencyDD)) ∈ (managePass stDD envBid 0).2 :=
  (c5_emergency_liquidation stDD envBid 0).1 (by norm_num [ddOf, stDD]) ("ord1") posA
    (by simp [stDD]) (by decide) (by simp [envBid])

/-! ## Correction Engine v2.0

State and operations of `CorrectionEngine` (`recordOutcome`, `_recalc`,
`serialize`, `restore`). Bucket families are JavaScript objects with dynamic
string keys (e.g. `volOutcomes` acquires `micro`/`scalp` keys at runtime),
embedded as insertion-ordered association lists; `_p` is push-with-window,
`_wr` the windowed win rate. Timestamps (`lastUpdate`, history `at`) are
omitted. -/

/-- Regime mode from `_recalc`. -/
inductive Mode where
  | LEARNING
  | AGGRESSIVE
  | DEFENSIVE
  | NORMAL
deriving DecidableEq

/-- A history entry pushed by `recordOutcome` (timestamp omitted, `pnl`
unrounded). -/
structure HistEntry where
  ticker : String
  side : String
  buyPrice : ℚ
  won : ℕ
  pnl : ℚ
  direction : String
  tier : String
  vol : String
  tw : String
  streak : ℤ
deriving DecidableEq

/-- The engine's derived state object (`this.state`, `lastUpdate` omitted). -/
structure Derived where
  edgeMultiplier : ℚ
  positionSizeMultiplier : ℚ
  directionBias : List (String × ℚ)
  volWeights : List (String × ℚ)
  timeWeights : List (String × ℚ)
  mode : Mode
deriving DecidableEq

/-- The full Correction Engine state. -/
structure CorrState where
  windowSize : ℕ
  minSamples : ℕ
  directionOutcomes : List (String × List ℕ)
  tierOutcomes : List (String × List ℕ)
  volOutcomes : List (String × List ℕ)
  timeOutcomes : List (String × List ℕ)
  consecutiveWins : ℕ
  consecutiveLosses : ℕ
  peakWinStreak : ℕ
  worstLossStreak : ℕ
  state : Derived
  totalBets : ℕ
  totalWins : ℕ
  totalLosses : ℕ
  totalPnL : ℚ
  history : List HistEntry
deriving DecidableEq

/-- `_p(a, v)`: push and evict the oldest past the window size. -/
def push1 (ws : ℕ) (a : List ℕ) (v : ℕ) : List ℕ :=
  let a' := a ++ [v]
  if ws < a'.length then a'.tail else a'

/-- Push into a keyed bucket object, creating the key when absent
(`this.x[k] || (this.x[k] = [])`). -/
def bPush (ws : ℕ) (b : List (String × List ℕ)) (k : String) (v : ℕ) :
    List (String × List ℕ) :=
  match b with
  | [] => [(k, [v])]
  | (k', a) :: t => if k' = k then (k, push1 ws a v) :: t else (k', a) :: bPush ws t k v

/-- JavaScript object property write `w[k] = v`: replace in place, or append
a new key. -/
def upsert (l : List (String × ℚ)) (k : String) (v : ℚ) : List (String × ℚ) :=
  match l with
  | [] => [(k, v)]
  | (k', v') :: t => if k' = k then (k, v) :: t else (k', v') :: upsert t k v

/-- `for (const [k, o] of Object.entries(outcomes)) weights[k] = f(o)`. -/
def upsertAll (w : List (String × ℚ)) (o : List (String × List ℕ)) (f : List ℕ → ℚ) :
    List (String × ℚ) :=
  o.foldl (fun acc e => upsert acc e.1 (f e.2)) w

/-- `_wr(o)`: windowed win rate in percent, `-1` below the sample minimum. -/
def wr (minSamples : ℕ) (o : List ℕ) : ℚ :=
  if o.length < minSamples then -1 else ((o.sum : ℚ) / o.length) * 100

/-- Direction-bias weight formula from `_recalc`. -/
def biasFor (ms : ℕ) (o : List ℕ) : ℚ :=
  let w := wr ms o
  if w < 0 then 1 else max 0.3 (min 1.6 (0.4 + w / 100 * 1.4))

/-- Volatility-regime weight formula from `_recalc`. -/
def volWFor (ms : ℕ) (o : List ℕ) : ℚ :=
  let w := wr ms o
  if w < 0 then 1 else max 0.4 (min 1.5 (0.4 + w / 100 * 1.3))

/-- Time-window weight formula from `_recalc`. -/
def timeWFor (ms : ℕ) (o : List ℕ) : ℚ :=
  let w := wr ms o
  if w < 0 then 1 else max 0.5 (min 1.4 (0.5 + w / 100 * 1.1))

/-- `_recalc`: recompute every derived field from the raw windows, streaks
and totals. -/
def recalc (s : CorrState) : CorrState :=
  let gwr : ℚ := if 0 < s.totalBets then (s.totalWins : ℚ) / (s.totalBets : ℚ) * 100 else -1
  let wrm : ℚ :=
    if gwr < 0 then 1
    else if gwr < 25 then 1.35
    else if gwr < 35 then 1.20
    else if gwr < 45 then 1.08
    else if gwr < 55 then 1
    else if gwr < 65 then 0.92
    else if gwr < 75 then 0.85
    else 0.78
  let sm : ℚ :=
    if 5 ≤ s.consecutiveLosses then 1.30
    else if 3 ≤ s.consecutiveLosses then 1.15
    else if 5 ≤ s.consecutiveWins then 0.82
    else if 3 ≤ s.consecutiveWins then 0.90
    else 1
  let em := max 0.55 (min 1.70 (wrm * sm))
  let psm : ℚ :=
    if 5 ≤ s.consecutiveLosses then 0.35
    else if 3 ≤ s.consecutiveLosses then 0.55
    else if 7 ≤ s.consecutiveWins then 1.40
    else if 5 ≤ s.consecutiveWins then 1.25
    else if 3 ≤ s.consecutiveWins then 1.12
    else 1
  { s with state :=
    { edgeMultiplier := em
      positionSizeMultiplier := psm
      directionBias := upsertAll s.state.directionBias s.directionOutcomes (biasFor s.minSamples)
      volWeights := upsertAll s.state.volWeights s.volOutcomes (volWFor s.minSamples)
      timeWeights := upsertAll s.state.timeWeights s.timeOutcomes (timeWFor s.minSamples)
      mode :=
        if s.totalBets < s.minSamples then Mode.LEARNING
        else if em > 1.15 then Mode.DEFENSIVE
        else if em < 0.88 then Mode.AGGRESSIVE
        else Mode.NORMAL } }

/-- `_tier(p)`: price tier bucket. -/
def tierOf (p : ℚ) : String :=
  if p ≥ 70 then ("safe") else if p ≥ 35 then ("moderate") else ("risky")

/-- The four time-of-day windows returned by `_tw` (always one of these). -/
inductive TimeKey where
  | morning
  | midday
  | afternoon
  | evening
deriving DecidableEq

/-- Bucket key string of a time window. -/
def timeKeyStr : TimeKey → String
  | TimeKey.morning => ("morning")
  | TimeKey.midday => ("midday")
  | TimeKey.afternoon => ("afternoon")
  | TimeKey.evening => ("evening")

/-- `recordOutcome(bet)`: push the boolean outcome into each relevant bucket,
update streaks and totals, append to the bounded history (200 entries), then
`_recalc`. The wall-clock time window `_tw(new Date())` is passed in as
`tw`. -/
def recordOutcome (s : CorrState) (bet : CorrBet) (tw : TimeKey) : CorrState :=
  let won01 : ℕ := if bet.won then 1 else 0
  let contracts1 : ℚ := if bet.contracts = 0 then 1 else bet.contracts
  let pnl : ℚ :=
    if bet.pnl = 0 then
      (if bet.won then (100 - bet.buyPrice) * contracts1 / 100
       else -(bet.buyPrice * contracts1 / 100))
    else bet.pnl
  let dir := if bet.direction = ("") then ("NEUTRAL") else bet.direction
  let tier := tierOf bet.buyPrice
  let vol := if bet.volRegime = ("") then ("medium") else bet.volRegime
  let cw := if bet.won then s.consecutiveWins + 1 else 0
  let cl := if bet.won then 0 else s.consecutiveLosses + 1
  let h' := s.history ++
    [⟨bet.ticker, bet.side, bet.buyPrice, won01, pnl, dir, tier, vol, timeKeyStr tw,
      if bet.won then (cw : ℤ) else -(cl : ℤ)⟩]
  recalc
    { s with
      directionOutcomes := bPush s.windowSize s.directionOutcomes dir won01
      tierOutcomes := bPush s.windowSize s.tierOutcomes tier won01
      volOutcomes := bPush s.windowSize s.volOutcomes vol won01
      timeOutcomes := bPush s.windowSize s.timeOutcomes (timeKeyStr tw) won01
      consecutiveWins := cw
      consecutiveLosses := cl
      peakWinStreak := if bet.won then max s.peakWinStreak cw else s.peakWinStreak
      worstLossStreak := if bet.won then s.worstLossStreak else max s.worstLossStreak cl
      totalBets := s.totalBets + 1
      totalWins := if bet.won then s.totalWins + 1 else s.totalWins
      totalLosses := if bet.won then s.totalLosses else s.totalLosses + 1
      totalPnL := s.totalPnL + pnl
      history := if 200 < h'.length then h'.tail else h' }

/-- `getSizeMultiplier()`. -/
def getSizeMultiplier (s : CorrState) : ℚ := s.state.positionSizeMultiplier

/-- The constructor's initial state (`windowSize 50`, `minSamples 3`, empty
windows, neutral derived state, `LEARNING`). -/
def initCorrState : CorrState :=
  { windowSize := 50
    minSamples := 3
    directionOutcomes := [(("UP"), []), (("DOWN"), []), (("NEUTRAL"), [])]
    tierOutcomes := [(("safe"), []), (("moderate"), []), (("risky"), [])]
    volOutcomes := [(("low"), []), (("medium"), []), (("high"), [])]
    timeOutcomes := [(("morning"), []), (("midday"), []), (("afternoon"), []), (("evening"), [])]
    consecutiveWins := 0
    consecutiveLosses := 0
    peakWinStreak := 0
    worstLossStreak := 0
    state :=
      { edgeMultiplier := 1
        positionSizeMultiplier := 1
        directionBias := [(("UP"), 1), (("DOWN"), 1), (("NEUTRAL"), 1)]
        volWeights := [(("low"), 1), (("medium"), 1), (("high"), 1)]
        timeWeights := [(("morning"), 1), (("midday"), 1), (("afternoon"), 1), (("evening"), 1)]
        mode := Mode.LEARNING }
    totalBets := 0
    totalWins := 0
    totalLosses := 0
    totalPnL := 0
    history := [] }

/-- The serialized snapshot (`serialize()`'s JSON payload: raw windows,
streak counters, totals, history, and a copy of the derived state). -/
structure CorrSnapshot where
  d : List (String × List ℕ)
  t : List (String × List ℕ)
  v : List (String × List ℕ)
  tm : List (String × List ℕ)
  cw : ℕ
  cl : ℕ
  pw : ℕ
  wl : ℕ
  tb : ℕ
  tw2 : ℕ
  tl : ℕ
  tp : ℚ
  h : List HistEntry
  s : Derived
deriving DecidableEq

/-- `serialize()`. -/
def serialize (st : CorrState) : CorrSnapshot :=
  ⟨st.directionOutcomes, st.tierOutcomes, st.volOutcomes, st.timeOutcomes,
    st.consecutiveWins, st.consecutiveLosses, st.peakWinStreak, st.worstLossStreak,
    st.totalBets, st.totalWins, st.totalLosses, st.totalPnL, st.history, st.state⟩

/-- `restore(j)`: overwrite every raw field from the snapshot (all fields are
present in a `serialize()` payload, so every guarded assignment fires and the
state spread is a full overwrite), then `_recalc`. -/
def restore (base : CorrState) (snap : CorrSnapshot) : CorrState :=
  recalc
    { base with
      directionOutcomes := snap.d
      tierOutcomes := snap.t
      volOutcomes := snap.v
      timeOutcomes := snap.tm
      consecutiveWins := snap.cw
      consecutiveLosses := snap.cl
      peakWinStreak := snap.pw
      worstLossStreak := snap.wl
      totalBets := snap.tb
      totalWins := snap.tw2
      totalLosses := snap.tl
      totalPnL := snap.tp
      history := snap.h
      state := snap.s }

/-- A snapshot whose persisted copies of the derived multipliers and mode
have been overwritten with arbitrary values. -/
def tamperDerived (snap : CorrSnapshot) (e p : ℚ) (m : Mode) : CorrSnapshot :=
  { snap with s :=
    { snap.s with edgeMultiplier := e, positionSizeMultiplier := p, mode := m } }

/-! ## Claim C6 — serialize/restore fidelity -/

theorem restore_serialize (S base : CorrState)
    (hws : base.windowSize = S.windowSize) (hms : base.minSamples = S.minSamples) :
    restore base (serialize S) = recalc S := by
  obtain ⟨ws, ms, d, t, v, tm, cw, cl, pw, wl, stt, tb, tw2, tl, tp, h⟩ := S
  obtain ⟨ws', ms', d', t', v', tm', cw', cl', pw', wl', stt', tb', tw2', tl', tp', h'⟩ := base
  simp only at hws hms
  subst hws
  subst hms
  rfl

theorem restore_tamper (S base : CorrState)
    (hws : base.windowSize = S.windowSize) (hms : base.minSamples = S.minSamples)
    (e p : ℚ) (m : Mode) :
    restore base (tamperDerived (serialize S) e p m) =
      recalc { S with state :=
        { S.state with edgeMultiplier := e, positionSizeMultiplier := p, mode := m } } := by
  obtain ⟨ws, ms, d, t, v, tm, cw, cl, pw, wl, stt, tb, tw2, tl, tp, h⟩ := S
  obtain ⟨ws', ms', d', t', v', tm', cw', cl', pw', wl', stt', tb', tw2', tl', tp', h'⟩ := base
  simp only at hws hms
  subst hws
  subst hms
  rfl

theorem recalc_tamper_state (S : CorrState) (e p : ℚ) (m : Mode) :
    (recalc { S with state :=
      { S.state with edgeMultiplier := e, positionSizeMultiplier := p, mode := m } }).state =
      (recalc S).state := rfl

/-- Claim C6: for every Correction Engine state (every state the engine can
be in is a `_recalc` fixed point: the constructor state is one, and both
`recordOutcome` and `restore` end in `_recalc`), serialize → restore with no
intervening `recordOutcome` yields identical derived state — edge multiplier,
stake multiplier, per-dimension weights and regime mode — and the result is
recomputed from the restored raw windows and counters: overwriting the
persisted copies of the multipliers and mode with arbitrary values does not
change the restored derived state. -/
theorem c6_restore_fidelity (S base : CorrState) (hfix : recalc S = S)
    (hws : base.windowSize = S.windowSize) (hms : base.minSamples = S.minSamples)
    (e p : ℚ) (m : Mode) :
    (restore base (serialize S)).state = S.state ∧
    (restore base (tamperDerived (serialize S) e p m)).state = S.state := by
  constructor
  · rw [restore_serialize S base hws hms, hfix]
  · rw [restore_tamper S base hws hms e p m, recalc_tamper_state, hfix]

theorem recalc_initCorrState : recalc initCorrState = initCorrState := by
  simp only [recalc, initCorrState, upsertAll, List.foldl, upsert, biasFor, volWFor,
    timeWFor, wr]
  norm_num
  decide

/-- Witness for C6: restoring the serialized initial state (with the
persisted multipliers tampered to 9, 9, `NORMAL`) into a fresh engine
reproduces the initial derived state. -/
theorem c6_witness :
    (restore initCorrState (serialize initCorrState)).state = initCorrState.state ∧
      (restore initCorrState
        (tamperDerived (serialize initCorrState) 9 9 Mode.NORMAL)).state =
        initCorrState.state :=
  c6_restore_fidelity initCorrState initCorrState recalc_initCorrState rfl rfl 9 9 Mode.NORMAL

/-! ## Claim C7 — streak monotonicity of the multipliers -/

/-- A losing outcome as reported by the scalper's settlement path. -/
def lossBet : CorrBet := ⟨("T"), ("no"), 40, 1, false, -0.4, ("DOWN"), ("scalp")⟩

/-- A winning outcome as reported by the scalper's settlement path. -/
def winBet : CorrBet := ⟨("T"), ("yes"), 40, 1, true, 0.6, ("UP"), ("scalp")⟩

/-- A fresh engine after `n` consecutive losses. -/
def afterLosses : ℕ → CorrState
  | 0 => initCorrState
  | n + 1 => recordOutcome (afterLosses n) lossBet TimeKey.midday

/-- A fresh engine after `n` consecutive wins. -/
def afterWins : ℕ → CorrState
  | 0 => initCorrState
  | n + 1 => recordOutcome (afterWins n) winBet TimeKey.midday

theorem afterLosses_counters (n : ℕ) :
    (afterLosses n).consecutiveLosses = n ∧ (afterLosses n).consecutiveWins = 0 ∧
      (afterLosses n).totalBets = n ∧ (afterLosses n).totalWins = 0 := by
  induction n with
  | zero => exact ⟨rfl, rfl, rfl, rfl⟩
  | succ n ih =>
    obtain ⟨h1, h2, h3, h4⟩ := ih
    refine ⟨?_, ?_, ?_, ?_⟩ <;>
      simp [afterLosses, recordOutcome, recalc, lossBet, h1, h2, h3, h4]

theorem afterWins_counters (n : ℕ) :
    (afterWins n).consecutiveWins = n ∧ (afterWins n).consecutiveLosses = 0 ∧
      (afterWins n).totalBets = n ∧ (afterWins n).totalWins = n := by
  induction n with
  | zero => exact ⟨rfl, rfl, rfl, rfl⟩
  | succ n ih =>
    obtain ⟨h1, h2, h3, h4⟩ := ih
    refine ⟨?_, ?_, ?_, ?_⟩ <;>
      simp [afterWins, recordOutcome, recalc, winBet, h1, h2, h3, h4]

theorem afterLosses_psm (n : ℕ) :
    (afterLosses n).state.positionSizeMultiplier =
      if 5 ≤ n then 0.35 else if 3 ≤ n then 0.55 else 1 := by
  cases n with
  | zero =>
    have h0 : ¬(5 ≤ 0) ∧ ¬(3 ≤ 0) := by omega
    rw [if_neg h0.1, if_neg h0.2]
    rfl
  | succ n =>
    obtain ⟨h1, h2, h3, h4⟩ := afterLosses_counters n
    show (recordOutcome (afterLosses n) lossBet TimeKey.midday).state.positionSizeMultiplier = _
    simp only [recordOutcome, recalc, lossBet, h1, h2, h3, h4]
    norm_num

theorem afterWins_edge (n : ℕ) :
    (afterWins n).state.edgeMultiplier =
      if 5 ≤ n then 0.6396 else if 3 ≤ n then 0.702 else if 1 ≤ n then 0.78 else 1 := by
  cases n with
  | zero =>
    have h0 : ¬(5 ≤ 0) ∧ ¬(3 ≤ 0) ∧ ¬(1 ≤ 0) := by omega
    rw [if_neg h0.1, if_neg h0.2.1, if_neg h0.2.2]
    rfl
  | succ n =>
    obtain ⟨h1, h2, h3, h4⟩ := afterWins_counters n
    show (recordOutcome (afterWins n) winBet TimeKey.midday).state.edgeMultiplier = _
    simp only [recordOutcome, recalc, winBet, h1, h2, h3, h4, eq_self_iff_true, if_true]
    have hpos : (0:ℕ) < n + 1 := n.succ_pos
    rw [if_pos hpos]
    have hgwr : ((n + 1 : ℕ) : ℚ) / ((n + 1 : ℕ) : ℚ) * 100 = 100 := by
      rw [div_self (by positivity)]
      norm_num
    rw [hgwr]
    norm_num
    split_ifs <;> first | omega | norm_num

/-- Claim C7: starting from a fresh Correction Engine, after `N` consecutive
losses the stake multiplier is `1` for `N < 3`, `0.55` for `3 ≤ N < 5` and
`0.35` for `N ≥ 5`, hence non-increasing in `N`; after `N` consecutive wins
the edge multiplier is non-increasing in `N` and never falls below the
configured floor `0.55`. -/
theorem c7_streak_monotonicity :
    (∀ n, (afterLosses n).state.positionSizeMultiplier =
      if 5 ≤ n then 0.35 else if 3 ≤ n then 0.55 else 1) ∧
    (∀ m n, m ≤ n → (afterLosses n).state.positionSizeMultiplier ≤
      (afterLosses m).state.positionSizeMultiplier) ∧
    (∀ m n, m ≤ n → (afterWins n).state.edgeMultiplier ≤
      (afterWins m).state.edgeMultiplier) ∧
    (∀ n, 0.55 ≤ (afterWins n).state.edgeMultiplier) := by
  refine ⟨afterLosses_psm, ?_, ?_, ?_⟩
  · intro m n hmn
    rw [afterLosses_psm m, afterLosses_psm n]
    split_ifs <;> first | omega | norm_num
  · intro m n hmn
    rw [afterWins_edge m, afterWins_edge n]
    split_ifs <;> first | omega | norm_num
  · intro n
    rw [afterWins_edge n]
    split_ifs <;> norm_num

/-- Witness for C7: the multipliers after 5 consecutive losses/wins do not
exceed those after 3. -/
theorem c7_witness :
    (afterLosses 5).state.positionSizeMultiplier ≤
        (afterLosses 3).state.positionSizeMultiplier ∧
      (afterWins 5).state.edgeMultiplier ≤ (afterWins 3).state.edgeMultiplier :=
  ⟨c7_streak_monotonicity.2.1 3 5 (by norm_num),
    c7_streak_monotonicity.2.2.1 3 5 (by norm_num)⟩

/-! ## Quantitative probability model (`_calcFlipProbability`, ℝ)

JavaScript falsiness of a missing/zero number is modelled as the value `0`;
`Math.sqrt`/`Math.exp` become `Real.sqrt`/`Real.exp` over exact reals. -/

/-- `volRemaining` from `_calcFlipProbability`:
`(volatilityPct / 100 || 0.001) / sqrt(5) * sqrt(max(0.1, minsLeft))`. -/
noncomputable def volRemainingOf (minsLeft volatilityPct : ℝ) : ℝ :=
  (if volatilityPct / 100 = 0 then 0.001 else volatilityPct / 100) / Real.sqrt 5 *
    Real.sqrt (max 0.1 minsLeft)

/-- `_calcFlipProbability(currentPrice, strikePrice, minsLeft, volatilityPct)`:
returns the fair YES probability. -/
noncomputable def calcFlipProbability
    (currentPrice strikePrice minsLeft volatilityPct : ℝ) : ℝ :=
  if currentPrice = 0 ∨ strikePrice = 0 ∨ minsLeft = 0 then 0.5
  else
    let distance := |currentPrice - strikePrice| / currentPrice
    let volRemaining := volRemainingOf minsLeft volatilityPct
    if volRemaining < 0.00001 then (if strikePrice < currentPrice then 0.99 else 0.01)
    else
      let zScore := distance / volRemaining
      let flipProb := 1 / (1 + Real.exp (1.7 * zScore))
      if strikePrice ≤ currentPrice then 1 - flipProb else flipProb

/-- The quantitative-mode probability pair from `_analyze`:
`yesProb = _calcFlipProbability(...)`, `noProb = 1 - yesProb`. -/
noncomputable def quantProbs (btcPrice strike minsLeft vol5m : ℝ) : ℝ × ℝ :=
  (calcFlipProbability btcPrice strike minsLeft vol5m,
    1 - calcFlipProbability btcPrice strike minsLeft vol5m)

/-! ## Claim C8 — the quantitative model formula -/

/-- Claim C8: in quantitative mode (nonzero reference price and strike, time
remaining within the analysis window so `max(0.1, m) = m`, nonzero
volatility, non-degenerate scaled volatility), the model probability equals
the claimed formula: `distance = |cp − strike| / cp`, scaled volatility
`(vol / 100 / √5)·√mins`, `z = distance / scaledVol`,
`flip = 1 / (1 + e^(1.7·z))`, and the fair YES probability is `1 − flip`
when the current price is at or above the strike and `flip` otherwise; the
other side is priced at the complement. -/
theorem c8_quant_model (cp strike mins volPct : ℝ)
    (hcp : cp ≠ 0) (hstrike : strike ≠ 0) (hm : 0.3 ≤ mins) (hv : volPct ≠ 0)
    (hnd : 0.00001 ≤ volPct / 100 / Real.sqrt 5 * Real.sqrt mins) :
    calcFlipProbability cp strike mins volPct =
      (if strike ≤ cp
       then 1 - 1 / (1 + Real.exp (1.7 *
         ((|cp - strike| / cp) / (volPct / 100 / Real.sqrt 5 * Real.sqrt mins))))
       else 1 / (1 + Real.exp (1.7 *
         ((|cp - strike| / cp) / (volPct / 100 / Real.sqrt 5 * Real.sqrt mins))))) ∧
    (quantProbs cp strike mins volPct).2 = 1 - (quantProbs cp strike mins volPct).1 := by
  have hm0 : mins ≠ 0 := by
    intro h
    rw [h] at hm
    norm_num at hm
  have hmax : max (0.1 : ℝ) mins = mins := max_eq_right (le_trans (by norm_num) hm)
  have hvd : volPct / 100 ≠ 0 := div_ne_zero hv (by norm_num)
  constructor
  · simp only [calcFlipProbability, volRemainingOf]
    rw [if_neg (by push_neg; exact ⟨hcp, hstrike, hm0⟩), if_neg hvd, hmax,
      if_neg (not_lt.mpr hnd)]
  · rfl

/-- Witness for C8 at `cp = 2`, `strike = 1`, `mins = 5`, `volPct = 100`
(there the scaled volatility is `(1/√5)·√5 = 1`). -/
theorem c8_witness :
    calcFlipProbability 2 1 5 100 =
      (if (1:ℝ) ≤ 2
       then 1 - 1 / (1 + Real.exp (1.7 *
         ((|(2:ℝ) - 1| / 2) / ((100:ℝ) / 100 / Real.sqrt 5 * Real.sqrt 5))))
       else 1 / (1 + Real.exp (1.7 *
         ((|(2:ℝ) - 1| / 2) / ((100:ℝ) / 100 / Real.sqrt 5 * Real.sqrt 5))))) ∧
    (quantProbs 2 1 5 100).2 = 1 - (quantProbs 2 1 5 100).1 :=
  c8_quant_model 2 1 5 100 (by norm_num) (by norm_num) (by norm_num) (by norm_num)
    (by
      have h5 : (0:ℝ) < Real.sqrt 5 := Real.sqrt_pos.mpr (by norm_num)
      have h100 : (100:ℝ) / 100 = 1 := by norm_num
      rw [h100, div_mul_cancel₀ 1 (ne_of_gt h5)]
      norm_num)

/-! ## Claim C10 — range and guard values of the flip probability -/

/-- Claim C10, counterexample: with the current price exactly at the strike
but a degenerate scaled volatility (`volatilityPct = 0.0001`, 0.1 minutes
left), the function returns `0.01`, not `0.5` — the degenerate-volatility
branch takes priority over the price-equals-strike case. -/
theorem c10_counterexample :
    calcFlipProbability 100 100 0.1 0.0001 = 0.01 ∧ ((0.01 : ℝ) ≠ 0.5) := by
  constructor
  · have hvd : (0.0001 : ℝ) / 100 ≠ 0 := by norm_num
    have hs5 : (1:ℝ) ≤ Real.sqrt 5 := by
      rw [show (1:ℝ) = Real.sqrt 1 from Real.sqrt_one.symm]
      exact Real.sqrt_le_sqrt (by norm_num)
    have hVR : volRemainingOf 0.1 0.0001 < 0.00001 := by
      unfold volRemainingOf
      rw [if_neg hvd, max_self]
      have hsM : Real.sqrt 0.1 ≤ 1 := Real.sqrt_le_one.mpr (by norm_num)
      have ha : (0:ℝ) ≤ (0.0001:ℝ) / 100 / Real.sqrt 5 := by positivity
      have h2 : (0.0001:ℝ) / 100 / Real.sqrt 5 * Real.sqrt 0.1 ≤
          (0.0001:ℝ) / 100 / Real.sqrt 5 := by
        simpa using mul_le_mul_of_nonneg_left hsM ha
      have h3 : (0.0001:ℝ) / 100 / Real.sqrt 5 ≤ (0.0001:ℝ) / 100 :=
        div_le_self (by norm_num) hs5
      have h4 : (0.0001:ℝ) / 100 < 0.00001 := by norm_num
      linarith
    simp only [calcFlipProbability]
    rw [if_neg (by norm_num), if_pos hVR, if_neg (lt_irrefl (100:ℝ))]
  · norm_num

/-- Claim C10 (amended): over exact real arithmetic the flip-probability
function always returns a value strictly between 0 and 1; it returns exactly
`0.5` whenever the current price, the strike, or the minutes remaining is
missing (zero) — including a known strike with exactly 0 minutes left; when
the guards pass and the scaled volatility degenerates below `1e-5` it
returns `0.99` if the current price is strictly above the strike and `0.01`
otherwise (also when the price equals the strike); and it returns exactly
`0.5` at current price equal to the strike whenever the scaled volatility is
non-degenerate. -/
theorem c10_flip_bounds :
    (∀ cp strike mins volPct : ℝ,
      0 < calcFlipProbability cp strike mins volPct ∧
        calcFlipProbability cp strike mins volPct < 1) ∧
    (∀ cp strike mins volPct : ℝ, cp = 0 ∨ strike = 0 ∨ mins = 0 →
      calcFlipProbability cp strike mins volPct = 0.5) ∧
    (∀ cp mins volPct : ℝ, cp ≠ 0 → mins ≠ 0 →
      0.00001 ≤ volRemainingOf mins volPct →
      calcFlipProbability cp cp mins volPct = 0.5) ∧
    (∀ cp strike mins volPct : ℝ, cp ≠ 0 → strike ≠ 0 → mins ≠ 0 →
      volRemainingOf mins volPct < 0.00001 →
      calcFlipProbability cp strike mins volPct =
        if strike < cp then 0.99 else 0.01) := by
  refine ⟨?_, ?_, ?_, ?_⟩
  · intro cp strike mins volPct
    simp only [calcFlipProbability]
    split_ifs with h1 h2 h3 h4
    · norm_num
    · norm_num
    · norm_num
    · have hE : 0 < Real.exp (1.7 * (|cp - strike| / cp / volRemainingOf mins volPct)) :=
        Real.exp_pos _
      have h1E : (0:ℝ) < 1 + Real.exp (1.7 * (|cp - strike| / cp / volRemainingOf mins volPct)) := by
        linarith
      have hf1 : 1 / (1 + Real.exp (1.7 * (|cp - strike| / cp / volRemainingOf mins volPct))) < 1 := by
        rw [div_lt_one h1E]
        linarith
      have hf0 : 0 < 1 / (1 + Real.exp (1.7 * (|cp - strike| / cp / volRemainingOf mins volPct))) := by
        positivity
      constructor <;> linarith
    · have hE : 0 < Real.exp (1.7 * (|cp - strike| / cp / volRemainingOf mins volPct)) :=
        Real.exp_pos _
      have h1E : (0:ℝ) < 1 + Real.exp (1.7 * (|cp - strike| / cp / volRemainingOf mins volPct)) := by
        linarith
      have hf1 : 1 / (1 + Real.exp (1.7 * (|cp - strike| / cp / volRemainingOf mins volPct))) < 1 := by
        rw [div_lt_one h1E]
        linarith
      have hf0 : 0 < 1 / (1 + Real.exp (1.7 * (|cp - strike| / cp / volRemainingOf mins volPct))) := by
        positivity
      constructor <;> linarith
  · intro cp strike mins volPct h
    simp only [calcFlipProbability]
    rw [if_pos h]
  · intro cp mins volPct hcp hm hnd
    simp only [calcFlipProbability]
    rw [if_neg (by push_neg; exact ⟨hcp, hcp, hm⟩), if_neg (not_lt.mpr hnd),
      if_pos le_rfl, sub_self, abs_zero, zero_div, zero_div, mul_zero, Real.exp_zero]
    norm_num
  · intro cp strike mins volPct hcp hstrike hm hnd
    simp only [calcFlipProbability]
    rw [if_neg (by push_neg; exact ⟨hcp, hstrike, hm⟩), if_pos hnd]

/-- Witness for C10: the zero-minutes guard and the at-the-strike value on
concrete inputs. -/
theorem c10_witness :
    calcFlipProbability 100 50 0 1 = 0.5 ∧ calcFlipProbability 100 100 5 100 = 0.5 :=
  ⟨c10_flip_bounds.2.1 100 50 0 1 (Or.inr (Or.inr rfl)),
    c10_flip_bounds.2.2.1 100 5 100 (by norm_num) (by norm_num)
      (by
        have h5 : (0:ℝ) < Real.sqrt 5 := Real.sqrt_pos.mpr (by norm_num)
        unfold volRemainingOf
        rw [if_neg (by norm_num), max_eq_right (by norm_num)]
        have h100 : (100:ℝ) / 100 = 1 := by norm_num
        rw [h100, div_mul_cancel₀ 1 (ne_of_gt h5)]
        norm_num)⟩
